import Mathlib

/-!
Verification of the ip-config IP monitor service.

This file gives a shallow embedding of the service's core logic:
  * string utilities (`src/utils/helpers.js`): whitespace trimming,
    commit-message sanitization, the IP-address validator (two regexes),
    the retry wrapper and the debounce guard;
  * the health tracker (`HealthStatus` in `src/utils/helpers.js`);
  * the detection chain (`IpDetectionService.getPublicIp`);
  * the git publish workflow (`GitService.commitAndPush` /
    `commitIpChange` / `attemptRollback`);
  * the reconciliation cycle (`IpMonitorService.checkAndUpdateIp`).

Strings are modelled as `List Char` (`JStr`).  External effects (file
reads, network calls, subprocess invocations) are modelled by passing
their outcomes in explicitly as `Except` values; the functions below
mirror the control flow of the JavaScript source on those outcomes.
-/

/-- JavaScript strings, modelled as lists of characters. -/
abbrev JStr := List Char

/-- Whitespace as matched by the JS `\s` class and `String.trim`
(the ASCII cases: space, tab, LF, VT, FF, CR). -/
def isWs (c : Char) : Bool :=
  decide (c.toNat = 32 ∨ c.toNat = 9 ∨ c.toNat = 10 ∨ c.toNat = 11 ∨
          c.toNat = 12 ∨ c.toNat = 13)

/-- JS `String.prototype.trim`: drop whitespace from both ends. -/
def jsTrim (l : JStr) : JStr :=
  ((l.dropWhile isWs).reverse.dropWhile isWs).reverse

/-- The characters removed by `sanitizeGitMessage`
(helpers.js line 34, the class containing backtick, dollar, parentheses,
braces, square brackets, pipe, ampersand, semicolon — code points
96, 36, 40, 41, 123, 125, 91, 93, 124, 38, 59). -/
def dangerousChar (c : Char) : Bool :=
  decide (c.toNat = 96 ∨ c.toNat = 36 ∨ c.toNat = 40 ∨ c.toNat = 41 ∨
          c.toNat = 123 ∨ c.toNat = 125 ∨ c.toNat = 91 ∨ c.toNat = 93 ∨
          c.toNat = 124 ∨ c.toNat = 38 ∨ c.toNat = 59)

/-- JS `replace` of all whitespace runs by a single space
(helpers.js line 35): every maximal run of `\s` characters becomes
one `' '`. -/
def collapseWs : JStr → JStr
  | [] => []
  | [c] => if isWs c then [' '] else [c]
  | a :: b :: rest =>
    if isWs a && isWs b then collapseWs (b :: rest)
    else (if isWs a then ' ' else a) :: collapseWs (b :: rest)

/-- `sanitizeGitMessage` (helpers.js lines 30-38).  A `none` input models
a null / undefined / non-string argument; the empty string is likewise
falsy in JS, so both fall back to the literal message.  Otherwise the
dangerous characters are removed, whitespace is normalized, the result
is trimmed and truncated to 100 characters. -/
def sanitizeGitMessage : Option JStr → JStr
  | none => "Update IP".data
  | some m =>
    if m = [] then "Update IP".data
    else List.take 100 (jsTrim (collapseWs (m.filter (fun c => !dangerousChar c))))

/-- The shell command built by `GitService.commit` (GitService.js
line 101): the sanitized message is interpolated into
`git commit -m "<msg>"`.  When sanitization yields the empty string the
source throws `Invalid commit message` before building any command,
modelled here as `none`. -/
def gitCommitCmd (message : Option JStr) : Option JStr :=
  let s := sanitizeGitMessage message
  if s = [] then none
  else some ("git commit -m \"".data ++ s ++ "\"".data)

/-! ### Regular expressions

A small star-free regex language, sufficient for the two anchored
regexes of `isValidIp` (helpers.js lines 21-22).  `Sem` is the standard
language semantics; `reMatch` is an executable matcher via Brzozowski
derivatives.  Character classes are identified by code point: `[0-9]` is
48-57, `[01]` is 48-49, `[0-4]` is 48-52, `[0-5]` is 48-53, `2` is 50,
`5` is 53, `.` is 46, `:` is 58, `[0-9a-fA-F]` is 48-57, 97-102 and
65-70. -/

/-- Star-free regular expressions over character classes. -/
inductive RE where
  | nul : RE
  | eps : RE
  | cls : (Char → Bool) → RE
  | cat : RE → RE → RE
  | alt : RE → RE → RE

/-- Language semantics of a regex (full-string, as the source regexes
are anchored with both start and end anchors). -/
def Sem : RE → JStr → Prop
  | .nul, _ => False
  | .eps, s => s = []
  | .cls p, s => ∃ c, s = [c] ∧ p c = true
  | .cat a b, s => ∃ s1 s2, s = s1 ++ s2 ∧ Sem a s1 ∧ Sem b s2
  | .alt a b, s => Sem a s ∨ Sem b s

/-- Does the regex accept the empty string? -/
def nullable : RE → Bool
  | .nul => false
  | .eps => true
  | .cls _ => false
  | .cat a b => nullable a && nullable b
  | .alt a b => nullable a || nullable b

/-- Smart alternation, collapsing dead branches. -/
def altS : RE → RE → RE
  | .nul, b => b
  | a, .nul => a
  | a, b => .alt a b

/-- Smart concatenation, collapsing dead and trivial branches. -/
def catS : RE → RE → RE
  | .nul, _ => .nul
  | _, .nul => .nul
  | .eps, b => b
  | a, .eps => a
  | a, b => .cat a b

/-- Brzozowski derivative of a regex by one character. -/
def rderiv : RE → Char → RE
  | .nul, _ => .nul
  | .eps, _ => .nul
  | .cls p, c => if p c then .eps else .nul
  | .cat a b, c =>
    if nullable a then altS (catS (rderiv a c) b) (rderiv b c)
    else catS (rderiv a c) b
  | .alt a b, c => altS (rderiv a c) (rderiv b c)

/-- Executable full-string regex matching. -/
def reMatch (r : RE) (s : JStr) : Bool :=
  nullable (s.foldl rderiv r)

/-- The class `[0-9]`. -/
def isDigitC (c : Char) : Bool := decide (48 ≤ c.toNat ∧ c.toNat ≤ 57)

/-- The class `[01]`. -/
def isZeroOne (c : Char) : Bool := decide (c.toNat = 48 ∨ c.toNat = 49)

/-- The class `[0-4]`. -/
def isZeroToFour (c : Char) : Bool := decide (48 ≤ c.toNat ∧ c.toNat ≤ 52)

/-- The class `[0-5]`. -/
def isZeroToFive (c : Char) : Bool := decide (48 ≤ c.toNat ∧ c.toNat ≤ 53)

/-- The literal character `2`. -/
def isTwo (c : Char) : Bool := decide (c.toNat = 50)

/-- The literal character `5`. -/
def isFive (c : Char) : Bool := decide (c.toNat = 53)

/-- The literal (escaped) dot. -/
def isDotC (c : Char) : Bool := decide (c.toNat = 46)

/-- The literal colon. -/
def isColonC (c : Char) : Bool := decide (c.toNat = 58)

/-- The class `[0-9a-fA-F]`. -/
def isHexC (c : Char) : Bool :=
  decide ((48 ≤ c.toNat ∧ c.toNat ≤ 57) ∨ (97 ≤ c.toNat ∧ c.toNat ≤ 102) ∨
          (65 ≤ c.toNat ∧ c.toNat ≤ 70))

/-- One IPv4 octet, `25[0-5]|2[0-4][0-9]|[01]?[0-9][0-9]?`
(helpers.js line 21).  The optional `X?` is embedded as `eps | X`. -/
def octetRE : RE :=
  .alt (.cat (.cls isTwo) (.cat (.cls isFive) (.cls isZeroToFive)))
    (.alt (.cat (.cls isTwo) (.cat (.cls isZeroToFour) (.cls isDigitC)))
      (.cat (.alt .eps (.cls isZeroOne))
        (.cat (.cls isDigitC) (.alt .eps (.cls isDigitC)))))

/-- An octet followed by a dot, the repeated unit of the IPv4 regex. -/
def octDotRE : RE := .cat octetRE (.cls isDotC)

/-- The IPv4 regex `^(?:octet\.){3}octet$` with the `{3}` repetition
unfolded. -/
def ipv4RE : RE := .cat octDotRE (.cat octDotRE (.cat octDotRE octetRE))

/-- One IPv6 group, `[0-9a-fA-F]{1,4}` (helpers.js line 22), with the
bounded repetition `{1,4}` unfolded as one mandatory and three optional
hex characters. -/
def hexGroupRE : RE :=
  .cat (.cls isHexC)
    (.cat (.alt .eps (.cls isHexC))
      (.cat (.alt .eps (.cls isHexC)) (.alt .eps (.cls isHexC))))

/-- A hex group followed by a colon, the repeated unit of the IPv6
regex. -/
def hexColonRE : RE := .cat hexGroupRE (.cls isColonC)

/-- The IPv6 regex `^(?:[0-9a-fA-F]{1,4}:){7}[0-9a-fA-F]{1,4}$` with the
`{7}` repetition unfolded. -/
def ipv6RE : RE :=
  .cat hexColonRE (.cat hexColonRE (.cat hexColonRE (.cat hexColonRE
    (.cat hexColonRE (.cat hexColonRE (.cat hexColonRE hexGroupRE))))))

/-- `isValidIp` (helpers.js lines 18-25): the string matches the IPv4
regex or the IPv6 regex.  The falsy-input guard of the source is
subsumed: both anchored regexes reject the empty string. -/
def isValidIp (s : JStr) : Bool := reMatch ipv4RE s || reMatch ipv6RE s

/-- Numeric value of a digit string (most significant first). -/
def octVal (o : JStr) : Nat :=
  List.foldl (fun acc c => 10 * acc + (c.toNat - 48)) 0 o

/-- A well-formed IPv4 octet as the spec describes it: a nonempty
decimal digit string of at most three digits whose value is at most
255 (leading zeros allowed, as in the source regex). -/
def goodOctet (o : JStr) : Prop :=
  o ≠ [] ∧ o.length ≤ 3 ∧ (∀ c ∈ o, isDigitC c = true) ∧ octVal o ≤ 255

/-- A well-formed IPv6 group: one to four hexadecimal digits. -/
def goodHexGroup (g : JStr) : Prop :=
  g ≠ [] ∧ g.length ≤ 4 ∧ ∀ c ∈ g, isHexC c = true

/-- The reconciliation decision of `checkAndUpdateIp`
(IpMonitorService.js lines 225 and 638):
`needsUpdate = localIp !== publicIp || remoteIp !== publicIp`. -/
def needsUpdate (localIp publicIp remoteIp : JStr) : Bool :=
  localIp != publicIp || remoteIp != publicIp

/-- Upper bound on the character classes appearing in a regex. -/
def ClsBound (P : Char → Prop) : RE → Prop
  | .nul => True
  | .eps => True
  | .cls p => ∀ c, p c = true → P c
  | .cat a b => ClsBound P a ∧ ClsBound P b
  | .alt a b => ClsBound P a ∧ ClsBound P b

instance (o : JStr) : Decidable (goodOctet o) := by
  unfold goodOctet; infer_instance

instance (g : JStr) : Decidable (goodHexGroup g) := by
  unfold goodHexGroup; infer_instance

/-- One stored error entry of the health tracker (helpers.js 209-213;
the stack field carries no information for the model). -/
structure HErr where
  timestamp : Nat
  message : String
deriving DecidableEq

/-- The mutable status object of `HealthStatus` (helpers.js 179-190). -/
structure HealthSt where
  healthy : Bool
  lastCheck : Option Nat
  lastSuccess : Option Nat
  lastIpChange : Option (Nat × JStr × JStr)
  errorCount : Nat
  totalChecks : Nat
  uptime : Nat
  errors : List HErr
deriving DecidableEq

/-- `HealthStatus.reset` / the constructor (helpers.js 175-190). -/
def freshHealth (now : Nat) : HealthSt :=
  { healthy := true, lastCheck := none, lastSuccess := none, lastIpChange := none,
    errorCount := 0, totalChecks := 0, uptime := now, errors := [] }

/-- `HealthStatus.recordCheck` (helpers.js 192-221).  On success the
error counter and stored errors reset (only when the counter was
positive, as in the source); on failure the counter increments, the
tracker becomes unhealthy at five consecutive errors, and the error (if
any) is appended with only the last ten entries retained. -/
def recordCheck (s : HealthSt) (success : Bool) (error : Option String)
    (now : Nat) : HealthSt :=
  if success then
    { s with
        lastCheck := some now,
        totalChecks := s.totalChecks + 1,
        lastSuccess := some now,
        healthy := true,
        errorCount := if s.errorCount > 0 then 0 else s.errorCount,
        errors := if s.errorCount > 0 then [] else s.errors }
  else
    let ec := s.errorCount + 1
    let es := match error with
      | none => s.errors
      | some msg =>
        let es0 := s.errors ++ [{ timestamp := now, message := msg }]
        if es0.length > 10 then es0.drop (es0.length - 10) else es0
    { s with
        lastCheck := some now,
        totalChecks := s.totalChecks + 1,
        errorCount := ec,
        healthy := decide (ec < 5),
        errors := es }

/-- `HealthStatus.recordIpChange` (helpers.js 223-229). -/
def recordIpChange (s : HealthSt) (oldIp newIp : JStr) (now : Nat) : HealthSt :=
  { s with lastIpChange := some (now, oldIp, newIp) }

/-- Timeline semantics of `debounce` (helpers.js 43-49) for a strictly
increasing list of trigger times: each trigger clears any still-pending
timeout and schedules the wrapped function `delay` later, so trigger `t`
leads to an invocation at `t + delay` unless the next trigger arrives
strictly before that moment.  An invocation that has already fired
cannot be cleared. -/
def fires (delay : Nat) : List Nat → List Nat
  | [] => []
  | [t] => [t + delay]
  | t :: u :: rest =>
    if u < t + delay then fires delay (u :: rest)
    else (t + delay) :: fires delay (u :: rest)

/-- `withRetry` (helpers.js 92-105), with the successive outcomes of
`fn` supplied as a function of the attempt number (first attempt is 1).
The recursion counts the remaining attempts; the final failure is
wrapped as in the source.  All call sites use `maxRetries ≥ 1`. -/
def withRetryGo (outcomes : Nat → Except String JStr) (maxRetries : Nat) :
    Nat → Except String JStr
  | 0 => .error "Failed after 0 attempts"
  | remaining + 1 =>
    match outcomes (maxRetries - remaining) with
    | .ok v => .ok v
    | .error e =>
      if remaining = 0 then
        .error ("Failed after " ++ toString maxRetries ++ " attempts: " ++ e)
      else withRetryGo outcomes maxRetries remaining

/-- Entry point of the retry wrapper. -/
def withRetry (outcomes : Nat → Except String JStr) (maxRetries : Nat) :
    Except String JStr :=
  withRetryGo outcomes maxRetries maxRetries

/-- One detection strategy of `IpDetectionService` (lines 16-42): a
name, a priority, and the outcome of each successive invocation of its
external call. -/
structure DetectionMethod where
  name : String
  priority : Nat
  outcomes : Nat → Except String JStr

/-- Insertion step of sorting the strategies by ascending priority. -/
def insertByPriority (m : DetectionMethod) :
    List DetectionMethod → List DetectionMethod
  | [] => [m]
  | x :: xs =>
    if m.priority ≤ x.priority then m :: x :: xs else x :: insertByPriority m xs

/-- The sort in `getPublicIp` (line 113):
`[...this.detectionMethods].sort((a, b) => a.priority - b.priority)`. -/
def sortByPriority : List DetectionMethod → List DetectionMethod
  | [] => []
  | m :: ms => insertByPriority m (sortByPriority ms)

/-- The success value of `getPublicIp` (lines 123-128), restricted to
the fields the claims speak about. -/
structure DetectResult where
  ip : JStr
  method : String
deriving DecidableEq

/-- Whether a strategy's retried invocation fails to produce a valid
address (either the retries are exhausted or the token fails
validation). -/
def strategyFailsB (m : DetectionMethod) : Bool :=
  match withRetry m.outcomes 2 with
  | .ok ip => !isValidIp ip
  | .error _ => true

/-- The per-strategy failure entry pushed by `getPublicIp`
(lines 130-135): `{method: name, error: "<name> failed: <message>"}`,
where an invalid token contributes the message
`Invalid IP format received: <ip>`. -/
def failEntry (m : DetectionMethod) : String × String :=
  match withRetry m.outcomes 2 with
  | .ok ip =>
    (m.name, m.name ++ " failed: Invalid IP format received: " ++ String.mk ip)
  | .error e => (m.name, m.name ++ " failed: " ++ e)

/-- The joined message of the aggregated error (line 140). -/
def errorSummary (errs : List (String × String)) : String :=
  String.intercalate "; " (errs.map fun e => e.1 ++ ": " ++ e.2)

/-- The strategy loop of `getPublicIp` (lines 109-142) over an already
sorted strategy list, accumulating the failure entries and the names of
the strategies invoked so far.  Each strategy runs under
`withRetry(method, 2, 1000)`; a validated result returns immediately;
otherwise its failure entry is recorded and the next strategy runs; when
the list is exhausted the aggregated error carries all entries and their
joined summary. -/
def getPublicIpGo : List DetectionMethod → List (String × String) → List String →
    Except (List (String × String) × String) DetectResult × List String
  | [], errs, att => (.error (errs, errorSummary errs), att)
  | m :: rest, errs, att =>
    match withRetry m.outcomes 2 with
    | .ok ip =>
      if isValidIp ip then (.ok { ip := ip, method := m.name }, att ++ [m.name])
      else getPublicIpGo rest (errs ++ [failEntry m]) (att ++ [m.name])
    | .error _ => getPublicIpGo rest (errs ++ [failEntry m]) (att ++ [m.name])

/-- `IpDetectionService.getPublicIp`: sort by priority, then walk the
chain. -/
def getPublicIp (methods : List DetectionMethod) :
    Except (List (String × String) × String) DetectResult × List String :=
  getPublicIpGo (sortByPriority methods) [] []

/-- Does one list occur as a leading segment of another? -/
def leadsWith : JStr → JStr → Bool
  | [], _ => true
  | _ :: _, [] => false
  | a :: as, b :: bs => a == b && leadsWith as bs

/-- Substring containment, as used by `error.message.includes` in
`GitService.commit` (lines 112-113). -/
def containsSub (needle : JStr) : JStr → Bool
  | [] => leadsWith needle []
  | c :: rest => leadsWith needle (c :: rest) || containsSub needle rest

/-- Outcomes of the external git commands a single `commitAndPush`
attempt may run, supplied by the environment. -/
structure GitWorld where
  pull : Except String String
  statusPorcelain : Except String String
  branch : Except String String
  add : Except String String
  commitCmd : Except String String
  push : Except String String
  rollback : Except String String

/-- `status.trim().length > 0` in `GitService.getStatus` (line 39). -/
def hasChangesOf (stdout : String) : Bool :=
  decide (0 < (jsTrim stdout.data).length)

/-- `GitService.commit` (lines 89-119) with `files = []` as called from
`commitAndPush`: sanitize the message (an empty sanitized message throws
before any command runs), run `git commit -m "<msg>"`, and treat a
`nothing to commit` / `no changes added` failure as success.  Returns
the outcome together with the commands actually run. -/
def commitStep (message : Option JStr) (cmdOutcome : Except String String) :
    Except String String × List String :=
  match gitCommitCmd message with
  | none => (.error "Git commit failed: Invalid commit message", [])
  | some cmd =>
    match cmdOutcome with
    | .ok r => (.ok r, [String.mk cmd])
    | .error e =>
      if containsSub "nothing to commit".data e.data ||
          containsSub "no changes added".data e.data then
        (.ok "No changes to commit", [String.mk cmd])
      else (.error ("Git commit failed: " ++ e), [String.mk cmd])

/-- Error wrapper of the `commitAndPush` catch block (line 187). -/
def failAt (step : String) (e : String) : String :=
  "Git operations failed at " ++ step ++ ": " ++ e

/-- Result of a publish-workflow invocation: the returned-or-thrown
outcome, the number of rollback attempts made, and the external commands
invoked. -/
structure CPOut where
  result : Except String String
  rollbacks : Nat
  commands : List String

/-- `GitService.commitAndPush` (lines 141-189).  The `operations` list
of the source grows to `[pull]` before the pull, `[pull, add]` before
the add, `[pull, add, commit]` before the commit and
`[pull, add, commit, push]` BEFORE the push command runs; the catch
block attempts a rollback exactly when `operations` contains `commit`
but not `push` — which holds when the commit step fails and never holds
when the push step fails.  The rollback attempt
(`git reset --soft HEAD~1`, lines 225-236) swallows its own failure.  On
any step failure the function throws (modelled as `.error`). -/
def commitAndPush (enabled : Bool) (w : GitWorld) (message : Option JStr)
    (files : List String) : CPOut :=
  if !enabled then
    { result := .ok "Git operations disabled", rollbacks := 0, commands := [] }
  else
    match w.pull with
    | .error e =>
      { result := .error (failAt "pull" ("Git pull failed: " ++ e)),
        rollbacks := 0, commands := ["git pull"] }
    | .ok _ =>
      match w.statusPorcelain with
      | .error e =>
        { result := .error (failAt "pull" ("Failed to get git status: " ++ e)),
          rollbacks := 0, commands := ["git pull", "git status --porcelain"] }
      | .ok st =>
        match w.branch with
        | .error e =>
          { result := .error (failAt "pull" ("Failed to get git status: " ++ e)),
            rollbacks := 0,
            commands := ["git pull", "git status --porcelain",
              "git branch --show-current"] }
        | .ok _ =>
          let baseCmds := ["git pull", "git status --porcelain",
            "git branch --show-current"]
          if !hasChangesOf st && files.isEmpty then
            { result := .ok "No changes to commit", rollbacks := 0,
              commands := baseCmds }
          else
            let addCmd := "git add " ++
              (if files.isEmpty then "." else String.intercalate " " files)
            match w.add with
            | .error e =>
              { result := .error (failAt "add" ("Git add failed: " ++ e)),
                rollbacks := 0, commands := baseCmds ++ [addCmd] }
            | .ok _ =>
              match commitStep message w.commitCmd with
              | (.error e, ccmds) =>
                { result := .error (failAt "commit" e), rollbacks := 1,
                  commands := baseCmds ++ [addCmd] ++ ccmds ++
                    ["git reset --soft HEAD~1"] }
              | (.ok _, ccmds) =>
                match w.push with
                | .error e =>
                  { result := .error (failAt "push" ("Git push failed: " ++ e)),
                    rollbacks := 0,
                    commands := baseCmds ++ [addCmd] ++ ccmds ++ ["git push"] }
                | .ok _ =>
                  { result :=
                      .ok "Git operations completed: pull -> add -> commit -> push",
                    rollbacks := 0,
                    commands := baseCmds ++ [addCmd] ++ ccmds ++ ["git push"] }

/-- The commit message of `commitIpChange` (lines 200-202). -/
def ciMessage (ip : JStr) (oldIp : Option JStr) : JStr :=
  match oldIp with
  | some o => "update ip ".data ++ o ++ " -> ".data ++ ip
  | none => "update ip ".data ++ ip

/-- The retry loop of `commitIpChange` (lines 207-211):
`withRetry(() => commitAndPush(message, files), maxRetries, 2000)`.
The per-attempt git worlds come from `worlds`; rollback attempts and
commands accumulate across attempts. -/
def commitIpChangeGo (worlds : Nat → GitWorld) (maxRetries : Nat)
    (msg : Option JStr) (files : List String) : Nat → CPOut
  | 0 => { result := .error "Failed after 0 attempts", rollbacks := 0, commands := [] }
  | remaining + 1 =>
    let r := commitAndPush true (worlds (maxRetries - remaining)) msg files
    match r.result with
    | .ok _ => r
    | .error e =>
      if remaining = 0 then
        { result := .error ("Failed after " ++ toString maxRetries ++
            " attempts: " ++ e),
          rollbacks := r.rollbacks, commands := r.commands }
      else
        let rest := commitIpChangeGo worlds maxRetries msg files remaining
        { result := rest.result, rollbacks := r.rollbacks + rest.rollbacks,
          commands := r.commands ++ rest.commands }

/-- `GitService.commitIpChange` (lines 194-220): short-circuit when git
or auto-commit is disabled, otherwise retry the full workflow and wrap a
final failure (the function throws; modelled as `.error`). -/
def commitIpChange (enabled autoCommit : Bool) (maxRetries : Nat)
    (worlds : Nat → GitWorld) (ip : JStr) (oldIp : Option JStr) : CPOut :=
  if !enabled || !autoCommit then
    { result := .ok "Auto-commit disabled", rollbacks := 0, commands := [] }
  else
    let out := commitIpChangeGo worlds maxRetries (some (ciMessage ip oldIp))
      ["src/config/ip.json"] maxRetries
    match out.result with
    | .ok _ => out
    | .error e =>
      { result := .error ("Failed to commit IP change: " ++ e),
        rollbacks := out.rollbacks, commands := out.commands }

/-- The possible return values of `checkAndUpdateIp`
(IpMonitorService.js 643-647 and 670-676), restricted to the fields the
claims speak about. -/
inductive CycleResult where
  | noUpdate (currentIp : JStr)
  | updated (oldIp newIp : JStr) (method : String)
deriving DecidableEq

/-- Outcomes of the external steps of one reconciliation cycle.  The git
commit step is absent: the monitor-level `commitIpChange` wrapper
(IpMonitorService.js 748-767) catches every git error, so that step can
affect neither the cycle result nor the health state. -/
structure CycleEnv where
  localRead : Except String JStr
  detect : Except String (JStr × String)
  remoteFetch : Except String JStr
  updateLocal : Except String Unit

/-- `IpMonitorService.checkAndUpdateIp` (lines 611-685): read the local
record, detect the public address, fetch the remote reference
(substituting the local address on failure), decide, and either record a
successful no-op or write the update.  Every failure is recorded in the
health tracker and then RE-THROWN (line 683), modelled as an `.error`
result. -/
def checkAndUpdateIp (env : CycleEnv) (h : HealthSt) (now : Nat) :
    Except String CycleResult × HealthSt :=
  match env.localRead with
  | .error e => (.error e, recordCheck h false (some e) now)
  | .ok localIp =>
    match env.detect with
    | .error e => (.error e, recordCheck h false (some e) now)
    | .ok (publicIp, method) =>
      let remoteIp := match env.remoteFetch with
        | .ok r => r
        | .error _ => localIp
      if needsUpdate localIp publicIp remoteIp then
        match env.updateLocal with
        | .error e => (.error e, recordCheck h false (some e) now)
        | .ok _ =>
          let h1 := recordIpChange h localIp publicIp now
          (.ok (.updated localIp publicIp method), recordCheck h1 true none now)
      else
        (.ok (.noUpdate publicIp), recordCheck h true none now)

/-- The periodic-timer path (IpMonitorService.js 600-606): the
`setInterval` callback invokes the debounced check, whose wrapper
(helpers.js 43-49) calls `checkAndUpdateIp` inside a `setTimeout`
callback without catching, so the cycle's outcome — including a
rejection — passes through unhandled. -/
def periodicTick (env : CycleEnv) (h : HealthSt) (now : Nat) :
    Except String CycleResult × HealthSt :=
  checkAndUpdateIp env h now

/-- A cycle environment whose local-record read fails. -/
def envLocalFail : CycleEnv :=
  { localRead := .error "Failed to read local IP: ENOENT",
    detect := .ok ("1.2.3.4".data, "Google DNS"),
    remoteFetch := .ok "1.2.3.4".data,
    updateLocal := .ok () }

/-- A cycle environment whose remote fetch fails. -/
def envRemoteFail : CycleEnv :=
  { localRead := .ok "1.2.3.4".data,
    detect := .ok ("1.2.3.4".data, "Google DNS"),
    remoteFetch := .error "Failed to fetch remote IP: timeout",
    updateLocal := .ok () }

/-- A strategy whose external call always fails. -/
def mGoogle : DetectionMethod :=
  { name := "Google DNS", priority := 1, outcomes := fun _ => .error "dig lookup failed" }

/-- A strategy whose external call returns a valid address. -/
def mIpify : DetectionMethod :=
  { name := "IPify API", priority := 2, outcomes := fun _ => .ok "93.184.216.34".data }

/-- A git world in which every step succeeds except the push. -/
def wPushFail : GitWorld :=
  { pull := .ok "", statusPorcelain := .ok "M src/config/ip.json",
    branch := .ok "main", add := .ok "", commitCmd := .ok "committed",
    push := .error "remote unreachable", rollback := .ok "" }

/-- A git world in which every step succeeds except the commit command. -/
def wCommitFail : GitWorld :=
  { pull := .ok "", statusPorcelain := .ok "M src/config/ip.json",
    branch := .ok "main", add := .ok "", commitCmd := .error "disk full",
    push := .ok "", rollback := .ok "" }

/-! ### Theorems -/

/-- Smart alternation is semantically alternation. -/
theorem sem_altS (a b : RE) (s : JStr) : Sem (altS a b) s ↔ (Sem a s ∨ Sem b s) := by
  cases a <;> cases b <;> simp [altS, Sem]

/-- Concatenation with the empty-string regex on the left. -/
theorem sem_cat_eps_left (b : RE) (s : JStr) : Sem (.cat .eps b) s ↔ Sem b s := by
  constructor
  · rintro ⟨s1, s2, rfl, h1, h2⟩
    cases h1; exact h2
  · intro h; exact ⟨[], s, rfl, rfl, h⟩

/-- Concatenation with the empty-string regex on the right. -/
theorem sem_cat_eps_right (a : RE) (s : JStr) : Sem (.cat a .eps) s ↔ Sem a s := by
  constructor
  · rintro ⟨s1, s2, rfl, h1, h2⟩
    cases h2; simpa using h1
  · intro h; exact ⟨s, [], by simp, h, rfl⟩

/-- Concatenation with the empty regex on the left is empty. -/
theorem sem_cat_nul_left (y : RE) (t : JStr) : Sem (RE.cat .nul y) t ↔ False := by
  constructor
  · rintro ⟨s1, s2, _, h1, _⟩; exact h1
  · rintro ⟨⟩

/-- Concatenation with the empty regex on the right is empty. -/
theorem sem_cat_nul_right (x : RE) (t : JStr) : Sem (RE.cat x .nul) t ↔ False := by
  constructor
  · rintro ⟨s1, s2, _, _, h2⟩; exact h2
  · rintro ⟨⟩

/-- Smart concatenation is semantically concatenation. -/
theorem sem_catS (a b : RE) (s : JStr) : Sem (catS a b) s ↔ Sem (.cat a b) s := by
  cases a <;> cases b <;> simp only [catS] <;>
    first
      | exact Iff.rfl
      | exact ⟨fun h => h.elim, fun h => ((sem_cat_nul_left _ _).mp h).elim⟩
      | exact ⟨fun h => h.elim, fun h => ((sem_cat_nul_right _ _).mp h).elim⟩
      | exact (sem_cat_eps_left _ _).symm
      | exact (sem_cat_eps_right _ _).symm

/-- A regex is nullable exactly when it accepts the empty string. -/
theorem nullable_iff (r : RE) : nullable r = true ↔ Sem r [] := by
  induction r with
  | nul => simp [nullable, Sem]
  | eps => simp [nullable, Sem]
  | cls p => simp [nullable, Sem]
  | cat a b iha ihb =>
    simp only [nullable, Bool.and_eq_true, iha, ihb, Sem]
    constructor
    · rintro ⟨ha, hb⟩; exact ⟨[], [], rfl, ha, hb⟩
    · rintro ⟨s1, s2, heq, ha, hb⟩
      rcases List.append_eq_nil.mp heq.symm with ⟨rfl, rfl⟩
      exact ⟨ha, hb⟩
  | alt a b iha ihb => simp [nullable, Bool.or_eq_true, iha, ihb, Sem]

/-- The derivative accepts the tail exactly when the regex accepts the
whole string. -/
theorem sem_rderiv (r : RE) (c : Char) (s : JStr) :
    Sem (rderiv r c) s ↔ Sem r (c :: s) := by
  induction r generalizing s with
  | nul => simp [rderiv, Sem]
  | eps => simp [rderiv, Sem]
  | cls p =>
    by_cases h : p c
    · have hr : rderiv (RE.cls p) c = RE.eps := by simp [rderiv, h]
      rw [hr]
      show s = [] ↔ ∃ d, c :: s = [d] ∧ p d = true
      constructor
      · rintro rfl; exact ⟨c, rfl, h⟩
      · rintro ⟨d, hd, _⟩
        exact (List.cons_eq_cons.mp hd).2
    · have hr : rderiv (RE.cls p) c = RE.nul := by simp [rderiv, h]
      rw [hr]
      show False ↔ ∃ d, c :: s = [d] ∧ p d = true
      constructor
      · rintro ⟨⟩
      · rintro ⟨d, hd, hpd⟩
        obtain ⟨h1, h2⟩ := List.cons_eq_cons.mp hd
        exact h (h1 ▸ hpd)
  | cat a b iha ihb =>
    by_cases hn : nullable a = true
    · have hr : rderiv (RE.cat a b) c = altS (catS (rderiv a c) b) (rderiv b c) := by
        simp [rderiv, hn]
      rw [hr, sem_altS, sem_catS]
      show (∃ s1 s2, s = s1 ++ s2 ∧ Sem (rderiv a c) s1 ∧ Sem b s2) ∨ Sem (rderiv b c) s ↔
        ∃ s1 s2, c :: s = s1 ++ s2 ∧ Sem a s1 ∧ Sem b s2
      constructor
      · rintro (⟨s1, s2, rfl, ha, hb⟩ | hb)
        · exact ⟨c :: s1, s2, rfl, (iha s1).mp ha, hb⟩
        · exact ⟨[], c :: s, rfl, (nullable_iff a).mp hn, (ihb s).mp hb⟩
      · rintro ⟨s1, s2, heq, ha, hb⟩
        cases s1 with
        | nil =>
          simp only [List.nil_append] at heq
          subst heq
          exact Or.inr ((ihb s).mpr hb)
        | cons d t =>
          rcases List.cons_eq_cons.mp heq with ⟨rfl, heq2⟩
          exact Or.inl ⟨t, s2, heq2, (iha t).mpr ha, hb⟩
    · have hr : rderiv (RE.cat a b) c = catS (rderiv a c) b := by
        simp [rderiv, hn]
      rw [hr, sem_catS]
      show (∃ s1 s2, s = s1 ++ s2 ∧ Sem (rderiv a c) s1 ∧ Sem b s2) ↔
        ∃ s1 s2, c :: s = s1 ++ s2 ∧ Sem a s1 ∧ Sem b s2
      constructor
      · rintro ⟨s1, s2, rfl, ha, hb⟩
        exact ⟨c :: s1, s2, rfl, (iha s1).mp ha, hb⟩
      · rintro ⟨s1, s2, heq, ha, hb⟩
        cases s1 with
        | nil =>
          exact absurd ((nullable_iff a).mpr ha) (by simp [hn])
        | cons d t =>
          rcases List.cons_eq_cons.mp heq with ⟨rfl, heq2⟩
          exact ⟨t, s2, heq2, (iha t).mpr ha, hb⟩
  | alt a b iha ihb => simp [rderiv, sem_altS, Sem, iha, ihb]

/-- Soundness and completeness of the executable matcher. -/
theorem reMatch_iff (r : RE) (s : JStr) : reMatch r s = true ↔ Sem r s := by
  induction s generalizing r with
  | nil => exact nullable_iff r
  | cons c s ih =>
    have h : reMatch r (c :: s) = reMatch (rderiv r c) s := rfl
    rw [h, ih, sem_rderiv]

/-- Characters are determined by their code points. -/
theorem char_of_toNat_eq {c d : Char} (h : c.toNat = d.toNat) : c = d :=
  Char.ext (UInt32.ext (by simpa [Char.toNat] using h))

/-- A matched dot-class character is the dot. -/
theorem eq_dot_of_isDotC {c : Char} (h : isDotC c = true) : c = '.' := by
  simp only [isDotC, decide_eq_true_eq] at h
  exact char_of_toNat_eq (by simpa using h)

/-- A matched colon-class character is the colon. -/
theorem eq_colon_of_isColonC {c : Char} (h : isColonC c = true) : c = ':' := by
  simp only [isColonC, decide_eq_true_eq] at h
  exact char_of_toNat_eq (by simpa using h)

/-- Every character of a string matched by a regex satisfies any bound on
the regex's character classes. -/
theorem sem_chars {P : Char → Prop} :
    ∀ {r : RE}, ClsBound P r → ∀ {s : JStr}, Sem r s → ∀ c ∈ s, P c := by
  intro r
  induction r with
  | nul =>
    intro _ s hs
    exact hs.elim
  | eps =>
    intro _ s hs
    subst hs
    intro c hc
    cases hc
  | cls p =>
    rintro hb s ⟨c, rfl, hpc⟩ d hd
    rcases List.mem_singleton.mp hd with rfl
    exact hb _ hpc
  | cat a b iha ihb =>
    rintro ⟨ba, bb⟩ s ⟨s1, s2, rfl, h1, h2⟩ c hc
    rcases List.mem_append.mp hc with hm | hm
    · exact iha ba h1 c hm
    · exact ihb bb h2 c hm
  | alt a b iha ihb =>
    rintro ⟨ba, bb⟩ s (h | h) c hc
    · exact iha ba h c hc
    · exact ihb bb h c hc

/-- Class bounds are monotone. -/
theorem clsBound_mono {P Q : Char → Prop} (hPQ : ∀ c, P c → Q c) :
    ∀ {r : RE}, ClsBound P r → ClsBound Q r := by
  intro r
  induction r with
  | nul => intro _; trivial
  | eps => intro _; trivial
  | cls p => intro hb c hc; exact hPQ c (hb c hc)
  | cat a b iha ihb => rintro ⟨ba, bb⟩; exact ⟨iha ba, ihb bb⟩
  | alt a b iha ihb => rintro ⟨ba, bb⟩; exact ⟨iha ba, ihb bb⟩

/-- Every class of the octet regex is contained in the digits. -/
theorem clsBound_octet : ClsBound (fun c => isDigitC c = true) octetRE := by
  simp only [octetRE, ClsBound]
  and_intros <;>
    first
      | trivial
      | (intro c hc
         simp only [isTwo, isFive, isZeroToFive, isZeroToFour, isZeroOne,
           isDigitC, decide_eq_true_eq] at hc ⊢
         omega)

/-- Every class of the hex-group regex is contained in the hex digits. -/
theorem clsBound_hexGroup : ClsBound (fun c => isHexC c = true) hexGroupRE := by
  simp only [hexGroupRE, ClsBound]
  and_intros <;> first | trivial | exact fun c hc => hc

/-- Characters of an IPv4 match are digits or dots. -/
theorem ipv4_chars {s : JStr} (h : Sem ipv4RE s) :
    ∀ c ∈ s, isDigitC c = true ∨ isDotC c = true := by
  have hoct : ClsBound (fun c => isDigitC c = true ∨ isDotC c = true) octetRE :=
    clsBound_mono (fun c h => Or.inl h) clsBound_octet
  have hdot : ClsBound (fun c => isDigitC c = true ∨ isDotC c = true) (.cls isDotC) :=
    fun c hc => Or.inr hc
  refine sem_chars ?_ h
  simp only [ipv4RE, octDotRE, ClsBound]
  exact ⟨⟨hoct, hdot⟩, ⟨hoct, hdot⟩, ⟨hoct, hdot⟩, hoct⟩

/-- Characters of an IPv6 match are hex digits or colons. -/
theorem ipv6_chars {s : JStr} (h : Sem ipv6RE s) :
    ∀ c ∈ s, isHexC c = true ∨ isColonC c = true := by
  have hgrp : ClsBound (fun c => isHexC c = true ∨ isColonC c = true) hexGroupRE :=
    clsBound_mono (fun c h => Or.inl h) clsBound_hexGroup
  have hcol : ClsBound (fun c => isHexC c = true ∨ isColonC c = true) (.cls isColonC) :=
    fun c hc => Or.inr hc
  refine sem_chars ?_ h
  simp only [ipv6RE, hexColonRE, ClsBound]
  exact ⟨⟨hgrp, hcol⟩, ⟨hgrp, hcol⟩, ⟨hgrp, hcol⟩, ⟨hgrp, hcol⟩,
    ⟨hgrp, hcol⟩, ⟨hgrp, hcol⟩, ⟨hgrp, hcol⟩, hgrp⟩

/-- Shape of a three-class concatenation. -/
theorem sem_cls3_iff (p q r : Char → Bool) (s : JStr) :
    Sem (.cat (.cls p) (.cat (.cls q) (.cls r))) s ↔
      ∃ a b c, s = [a, b, c] ∧ p a = true ∧ q b = true ∧ r c = true := by
  constructor
  · rintro ⟨s1, s2, rfl, ⟨a, rfl, ha⟩, s3, s4, rfl, ⟨b, rfl, hb⟩, ⟨c, rfl, hc⟩⟩
    exact ⟨a, b, c, rfl, ha, hb, hc⟩
  · rintro ⟨a, b, c, rfl, ha, hb, hc⟩
    exact ⟨[a], [b, c], rfl, ⟨a, rfl, ha⟩, [b], [c], rfl, ⟨b, rfl, hb⟩, ⟨c, rfl, hc⟩⟩

/-- Shape of the third octet alternative `[01]?[0-9][0-9]?`. -/
theorem sem_alt3_iff (s : JStr) :
    Sem (.cat (.alt .eps (.cls isZeroOne))
          (.cat (.cls isDigitC) (.alt .eps (.cls isDigitC)))) s ↔
      (∃ a, s = [a] ∧ isDigitC a = true) ∨
      (∃ a b, s = [a, b] ∧ isDigitC a = true ∧ isDigitC b = true) ∨
      (∃ z a, s = [z, a] ∧ isZeroOne z = true ∧ isDigitC a = true) ∨
      (∃ z a b, s = [z, a, b] ∧ isZeroOne z = true ∧ isDigitC a = true ∧
        isDigitC b = true) := by
  constructor
  · rintro ⟨s1, s2, rfl, h1, s3, s4, rfl, ⟨a, rfl, ha⟩, h3⟩
    rcases h1 with rfl | ⟨z, rfl, hz⟩ <;> rcases h3 with rfl | ⟨b, rfl, hb⟩
    · exact Or.inl ⟨a, rfl, ha⟩
    · exact Or.inr (Or.inl ⟨a, b, rfl, ha, hb⟩)
    · exact Or.inr (Or.inr (Or.inl ⟨z, a, rfl, hz, ha⟩))
    · exact Or.inr (Or.inr (Or.inr ⟨z, a, b, rfl, hz, ha, hb⟩))
  · rintro (⟨a, rfl, ha⟩ | ⟨a, b, rfl, ha, hb⟩ | ⟨z, a, rfl, hz, ha⟩ |
      ⟨z, a, b, rfl, hz, ha, hb⟩)
    · exact ⟨[], [a], rfl, Or.inl rfl, [a], [], rfl, ⟨a, rfl, ha⟩, Or.inl rfl⟩
    · exact ⟨[], [a, b], rfl, Or.inl rfl, [a], [b], rfl, ⟨a, rfl, ha⟩,
        Or.inr ⟨b, rfl, hb⟩⟩
    · exact ⟨[z], [a], rfl, Or.inr ⟨z, rfl, hz⟩, [a], [], rfl, ⟨a, rfl, ha⟩,
        Or.inl rfl⟩
    · exact ⟨[z], [a, b], rfl, Or.inr ⟨z, rfl, hz⟩, [a], [b], rfl, ⟨a, rfl, ha⟩,
        Or.inr ⟨b, rfl, hb⟩⟩

/-- The octet regex matches exactly the digit strings of up to three
digits with value at most 255. -/
theorem sem_octet_iff (o : JStr) : Sem octetRE o ↔ goodOctet o := by
  constructor
  · intro h
    have h' : Sem (.cat (.cls isTwo) (.cat (.cls isFive) (.cls isZeroToFive))) o ∨
        Sem (.cat (.cls isTwo) (.cat (.cls isZeroToFour) (.cls isDigitC))) o ∨
        Sem (.cat (.alt .eps (.cls isZeroOne))
          (.cat (.cls isDigitC) (.alt .eps (.cls isDigitC)))) o := h
    rcases h' with h1 | h2 | h3
    · obtain ⟨a, b, c, rfl, ha, hb, hc⟩ := (sem_cls3_iff _ _ _ _).mp h1
      simp only [isTwo, isFive, isZeroToFive, decide_eq_true_eq] at ha hb hc
      refine ⟨by simp, by simp, ?_, ?_⟩
      · intro x hx
        rcases List.mem_cons.mp hx with rfl | hx
        · simp only [isDigitC, decide_eq_true_eq]; omega
        rcases List.mem_cons.mp hx with rfl | hx
        · simp only [isDigitC, decide_eq_true_eq]; omega
        rcases List.mem_singleton.mp hx with rfl
        simp only [isDigitC, decide_eq_true_eq]; omega
      · simp only [octVal, List.foldl]; omega
    · obtain ⟨a, b, c, rfl, ha, hb, hc⟩ := (sem_cls3_iff _ _ _ _).mp h2
      simp only [isTwo, isZeroToFour, isDigitC, decide_eq_true_eq] at ha hb hc
      refine ⟨by simp, by simp, ?_, ?_⟩
      · intro x hx
        rcases List.mem_cons.mp hx with rfl | hx
        · simp only [isDigitC, decide_eq_true_eq]; omega
        rcases List.mem_cons.mp hx with rfl | hx
        · simp only [isDigitC, decide_eq_true_eq]; omega
        rcases List.mem_singleton.mp hx with rfl
        simp only [isDigitC, decide_eq_true_eq]; omega
      · simp only [octVal, List.foldl]; omega
    · rcases (sem_alt3_iff o).mp h3 with ⟨a, rfl, ha⟩ | ⟨a, b, rfl, ha, hb⟩ |
        ⟨z, a, rfl, hz, ha⟩ | ⟨z, a, b, rfl, hz, ha, hb⟩
      · simp only [isDigitC, decide_eq_true_eq] at ha
        refine ⟨by simp, by simp, ?_, ?_⟩
        · intro x hx
          rcases List.mem_singleton.mp hx with rfl
          simp only [isDigitC, decide_eq_true_eq]; omega
        · simp only [octVal, List.foldl]; omega
      · simp only [isDigitC, decide_eq_true_eq] at ha hb
        refine ⟨by simp, by simp, ?_, ?_⟩
        · intro x hx
          rcases List.mem_cons.mp hx with rfl | hx
          · simp only [isDigitC, decide_eq_true_eq]; omega
          rcases List.mem_singleton.mp hx with rfl
          simp only [isDigitC, decide_eq_true_eq]; omega
        · simp only [octVal, List.foldl]; omega
      · simp only [isZeroOne, isDigitC, decide_eq_true_eq] at hz ha
        refine ⟨by simp, by simp, ?_, ?_⟩
        · intro x hx
          rcases List.mem_cons.mp hx with rfl | hx
          · simp only [isDigitC, decide_eq_true_eq]; omega
          rcases List.mem_singleton.mp hx with rfl
          simp only [isDigitC, decide_eq_true_eq]; omega
        · simp only [octVal, List.foldl]; omega
      · simp only [isZeroOne, isDigitC, decide_eq_true_eq] at hz ha hb
        refine ⟨by simp, by simp, ?_, ?_⟩
        · intro x hx
          rcases List.mem_cons.mp hx with rfl | hx
          · simp only [isDigitC, decide_eq_true_eq]; omega
          rcases List.mem_cons.mp hx with rfl | hx
          · simp only [isDigitC, decide_eq_true_eq]; omega
          rcases List.mem_singleton.mp hx with rfl
          simp only [isDigitC, decide_eq_true_eq]; omega
        · simp only [octVal, List.foldl]; omega
  · rintro ⟨hne, hlen, hdig, hval⟩
    have hshape : Sem (.cat (.cls isTwo) (.cat (.cls isFive) (.cls isZeroToFive))) o ∨
        Sem (.cat (.cls isTwo) (.cat (.cls isZeroToFour) (.cls isDigitC))) o ∨
        Sem (.cat (.alt .eps (.cls isZeroOne))
          (.cat (.cls isDigitC) (.alt .eps (.cls isDigitC)))) o → Sem octetRE o :=
      fun h => h
    apply hshape
    match o, hne with
    | [a], _ =>
      exact Or.inr (Or.inr ((sem_alt3_iff _).mpr (Or.inl ⟨a, rfl, hdig a (by simp)⟩)))
    | [a, b], _ =>
      exact Or.inr (Or.inr ((sem_alt3_iff _).mpr (Or.inr (Or.inl
        ⟨a, b, rfl, hdig a (by simp), hdig b (by simp)⟩))))
    | [a, b, c], _ =>
      have ha := hdig a (by simp)
      have hb := hdig b (by simp)
      have hc := hdig c (by simp)
      simp only [isDigitC, decide_eq_true_eq] at ha hb hc
      have hv : 100 * (a.toNat - 48) + 10 * (b.toNat - 48) + (c.toNat - 48) ≤ 255 := by
        have := hval
        simp only [octVal, List.foldl] at this
        omega
      by_cases hz : a.toNat ≤ 49
      · refine Or.inr (Or.inr ((sem_alt3_iff _).mpr (Or.inr (Or.inr (Or.inr
          ⟨a, b, c, rfl, ?_, ?_, ?_⟩)))))
        · simp only [isZeroOne, decide_eq_true_eq]; omega
        · simp only [isDigitC, decide_eq_true_eq]; omega
        · simp only [isDigitC, decide_eq_true_eq]; omega
      · have ha2 : a.toNat = 50 := by omega
        by_cases hb4 : b.toNat ≤ 52
        · refine Or.inr (Or.inl ((sem_cls3_iff _ _ _ _).mpr ⟨a, b, c, rfl, ?_, ?_, ?_⟩))
          · simp only [isTwo, decide_eq_true_eq]; omega
          · simp only [isZeroToFour, decide_eq_true_eq]; omega
          · simp only [isDigitC, decide_eq_true_eq]; omega
        · have hb5 : b.toNat = 53 := by omega
          refine Or.inl ((sem_cls3_iff _ _ _ _).mpr ⟨a, b, c, rfl, ?_, ?_, ?_⟩)
          · simp only [isTwo, decide_eq_true_eq]; omega
          · simp only [isFive, decide_eq_true_eq]; omega
          · simp only [isZeroToFive, decide_eq_true_eq]; omega
    | a :: b :: c :: d :: t, _ =>
      exact absurd hlen (by simp)

/-- The hex-group regex matches exactly the strings of one to four hex
digits. -/
theorem sem_hexGroup_iff (g : JStr) : Sem hexGroupRE g ↔ goodHexGroup g := by
  constructor
  · intro h
    have h' : Sem (.cat (.cls isHexC)
        (.cat (.alt .eps (.cls isHexC))
          (.cat (.alt .eps (.cls isHexC)) (.alt .eps (.cls isHexC))))) g := h
    obtain ⟨s1, s2, rfl, ⟨a, rfl, ha⟩, s3, s4, rfl, h1, s5, s6, rfl, h2, h3⟩ := h'
    rcases h1 with rfl | ⟨b, rfl, hb⟩ <;> rcases h2 with rfl | ⟨c, rfl, hc⟩ <;>
      rcases h3 with rfl | ⟨d, rfl, hd⟩ <;>
      refine ⟨by simp, by simp, ?_⟩ <;>
      intro x hx <;> simp only [List.singleton_append, List.nil_append,
        List.append_nil, List.cons_append, List.mem_cons,
        List.mem_singleton, List.not_mem_nil, or_false] at hx
    · rcases hx with rfl; assumption
    · rcases hx with rfl | rfl <;> assumption
    · rcases hx with rfl | rfl <;> assumption
    · rcases hx with rfl | rfl | rfl <;> assumption
    · rcases hx with rfl | rfl <;> assumption
    · rcases hx with rfl | rfl | rfl <;> assumption
    · rcases hx with rfl | rfl | rfl <;> assumption
    · rcases hx with rfl | rfl | rfl | rfl <;> assumption
  · rintro ⟨hne, hlen, hhex⟩
    have hshape : Sem (.cat (.cls isHexC)
        (.cat (.alt .eps (.cls isHexC))
          (.cat (.alt .eps (.cls isHexC)) (.alt .eps (.cls isHexC))))) g →
        Sem hexGroupRE g := fun h => h
    apply hshape
    match g, hne with
    | [a], _ =>
      exact ⟨[a], [], rfl, ⟨a, rfl, hhex a (by simp)⟩, [], [], rfl, Or.inl rfl,
        [], [], rfl, Or.inl rfl, Or.inl rfl⟩
    | [a, b], _ =>
      exact ⟨[a], [b], rfl, ⟨a, rfl, hhex a (by simp)⟩, [b], [], rfl,
        Or.inr ⟨b, rfl, hhex b (by simp)⟩, [], [], rfl, Or.inl rfl, Or.inl rfl⟩
    | [a, b, c], _ =>
      exact ⟨[a], [b, c], rfl, ⟨a, rfl, hhex a (by simp)⟩, [b], [c], rfl,
        Or.inr ⟨b, rfl, hhex b (by simp)⟩, [c], [], rfl,
        Or.inr ⟨c, rfl, hhex c (by simp)⟩, Or.inl rfl⟩
    | [a, b, c, d], _ =>
      exact ⟨[a], [b, c, d], rfl, ⟨a, rfl, hhex a (by simp)⟩, [b], [c, d], rfl,
        Or.inr ⟨b, rfl, hhex b (by simp)⟩, [c], [d], rfl,
        Or.inr ⟨c, rfl, hhex c (by simp)⟩, Or.inr ⟨d, rfl, hhex d (by simp)⟩⟩
    | a :: b :: c :: d :: e :: t, _ =>
      exact absurd hlen (by simp)

/-- Shape of a concatenation ending in a single class character. -/
theorem sem_cat_cls_right (a : RE) (p : Char → Bool) (s : JStr) :
    Sem (.cat a (.cls p)) s ↔ ∃ t c, s = t ++ [c] ∧ Sem a t ∧ p c = true := by
  constructor
  · rintro ⟨s1, s2, rfl, h1, ⟨c, rfl, hc⟩⟩
    exact ⟨s1, c, rfl, h1, hc⟩
  · rintro ⟨t, c, rfl, h1, hc⟩
    exact ⟨t, [c], rfl, h1, ⟨c, rfl, hc⟩⟩

/-- Decomposition of an IPv4 match into its four octets. -/
theorem sem_ipv4_iff (s : JStr) :
    Sem ipv4RE s ↔ ∃ o1 o2 o3 o4,
      s = o1 ++ '.' :: (o2 ++ '.' :: (o3 ++ '.' :: o4)) ∧
      Sem octetRE o1 ∧ Sem octetRE o2 ∧ Sem octetRE o3 ∧ Sem octetRE o4 := by
  constructor
  · rintro ⟨t1, t2, rfl, hod1, t3, t4, rfl, hod2, t5, t6, rfl, hod3, hoct4⟩
    obtain ⟨o1, c1, rfl, ho1, hc1⟩ := (sem_cat_cls_right _ _ _).mp hod1
    obtain ⟨o2, c2, rfl, ho2, hc2⟩ := (sem_cat_cls_right _ _ _).mp hod2
    obtain ⟨o3, c3, rfl, ho3, hc3⟩ := (sem_cat_cls_right _ _ _).mp hod3
    rcases eq_dot_of_isDotC hc1 with rfl
    rcases eq_dot_of_isDotC hc2 with rfl
    rcases eq_dot_of_isDotC hc3 with rfl
    exact ⟨o1, o2, o3, t6, by simp, ho1, ho2, ho3, hoct4⟩
  · rintro ⟨o1, o2, o3, o4, rfl, h1, h2, h3, h4⟩
    refine ⟨o1 ++ ['.'], o2 ++ '.' :: (o3 ++ '.' :: o4), by simp, ?_, ?_⟩
    · exact (sem_cat_cls_right _ _ _).mpr ⟨o1, '.', rfl, h1, by decide⟩
    refine ⟨o2 ++ ['.'], o3 ++ '.' :: o4, by simp, ?_, ?_⟩
    · exact (sem_cat_cls_right _ _ _).mpr ⟨o2, '.', rfl, h2, by decide⟩
    refine ⟨o3 ++ ['.'], o4, by simp, ?_, h4⟩
    exact (sem_cat_cls_right _ _ _).mpr ⟨o3, '.', rfl, h3, by decide⟩

/-- Decomposition of an IPv6 match into its eight hex groups. -/
theorem sem_ipv6_iff (s : JStr) :
    Sem ipv6RE s ↔ ∃ g1 g2 g3 g4 g5 g6 g7 g8,
      s = g1 ++ ':' :: (g2 ++ ':' :: (g3 ++ ':' :: (g4 ++ ':' :: (g5 ++ ':' ::
        (g6 ++ ':' :: (g7 ++ ':' :: g8)))))) ∧
      Sem hexGroupRE g1 ∧ Sem hexGroupRE g2 ∧ Sem hexGroupRE g3 ∧
      Sem hexGroupRE g4 ∧ Sem hexGroupRE g5 ∧ Sem hexGroupRE g6 ∧
      Sem hexGroupRE g7 ∧ Sem hexGroupRE g8 := by
  constructor
  · rintro ⟨t1, t2, rfl, hg1, t3, t4, rfl, hg2, t5, t6, rfl, hg3, t7, t8, rfl,
      hg4, t9, t10, rfl, hg5, t11, t12, rfl, hg6, t13, t14, rfl, hg7, hg8⟩
    obtain ⟨g1, c1, rfl, h1, hc1⟩ := (sem_cat_cls_right _ _ _).mp hg1
    obtain ⟨g2, c2, rfl, h2, hc2⟩ := (sem_cat_cls_right _ _ _).mp hg2
    obtain ⟨g3, c3, rfl, h3, hc3⟩ := (sem_cat_cls_right _ _ _).mp hg3
    obtain ⟨g4, c4, rfl, h4, hc4⟩ := (sem_cat_cls_right _ _ _).mp hg4
    obtain ⟨g5, c5, rfl, h5, hc5⟩ := (sem_cat_cls_right _ _ _).mp hg5
    obtain ⟨g6, c6, rfl, h6, hc6⟩ := (sem_cat_cls_right _ _ _).mp hg6
    obtain ⟨g7, c7, rfl, h7, hc7⟩ := (sem_cat_cls_right _ _ _).mp hg7
    rcases eq_colon_of_isColonC hc1 with rfl
    rcases eq_colon_of_isColonC hc2 with rfl
    rcases eq_colon_of_isColonC hc3 with rfl
    rcases eq_colon_of_isColonC hc4 with rfl
    rcases eq_colon_of_isColonC hc5 with rfl
    rcases eq_colon_of_isColonC hc6 with rfl
    rcases eq_colon_of_isColonC hc7 with rfl
    exact ⟨g1, g2, g3, g4, g5, g6, g7, t14, by simp, h1, h2, h3, h4, h5, h6, h7, hg8⟩
  · rintro ⟨g1, g2, g3, g4, g5, g6, g7, g8, rfl, h1, h2, h3, h4, h5, h6, h7, h8⟩
    refine ⟨g1 ++ [':'], g2 ++ ':' :: (g3 ++ ':' :: (g4 ++ ':' :: (g5 ++ ':' ::
      (g6 ++ ':' :: (g7 ++ ':' :: g8))))), by simp, (sem_cat_cls_right _ _ _).mpr
      ⟨g1, ':', rfl, h1, by decide⟩, ?_⟩
    refine ⟨g2 ++ [':'], g3 ++ ':' :: (g4 ++ ':' :: (g5 ++ ':' :: (g6 ++ ':' ::
      (g7 ++ ':' :: g8)))), by simp, (sem_cat_cls_right _ _ _).mpr
      ⟨g2, ':', rfl, h2, by decide⟩, ?_⟩
    refine ⟨g3 ++ [':'], g4 ++ ':' :: (g5 ++ ':' :: (g6 ++ ':' :: (g7 ++ ':' :: g8))),
      by simp, (sem_cat_cls_right _ _ _).mpr ⟨g3, ':', rfl, h3, by decide⟩, ?_⟩
    refine ⟨g4 ++ [':'], g5 ++ ':' :: (g6 ++ ':' :: (g7 ++ ':' :: g8)), by simp,
      (sem_cat_cls_right _ _ _).mpr ⟨g4, ':', rfl, h4, by decide⟩, ?_⟩
    refine ⟨g5 ++ [':'], g6 ++ ':' :: (g7 ++ ':' :: g8), by simp,
      (sem_cat_cls_right _ _ _).mpr ⟨g5, ':', rfl, h5, by decide⟩, ?_⟩
    refine ⟨g6 ++ [':'], g7 ++ ':' :: g8, by simp,
      (sem_cat_cls_right _ _ _).mpr ⟨g6, ':', rfl, h6, by decide⟩, ?_⟩
    exact ⟨g7 ++ [':'], g8, by simp, (sem_cat_cls_right _ _ _).mpr
      ⟨g7, ':', rfl, h7, by decide⟩, h8⟩

/-- Digits are not dots. -/
theorem digit_not_dot {c : Char} (h : isDigitC c = true) : isDotC c = false := by
  simp only [isDigitC, decide_eq_true_eq] at h
  simp only [isDotC, decide_eq_false_iff_not]
  omega

/-- Digits are not colons. -/
theorem digit_not_colon {c : Char} (h : isDigitC c = true) : isColonC c = false := by
  simp only [isDigitC, decide_eq_true_eq] at h
  simp only [isColonC, decide_eq_false_iff_not]
  omega

/-- Hex digits are not colons. -/
theorem hex_not_colon {c : Char} (h : isHexC c = true) : isColonC c = false := by
  simp only [isHexC, decide_eq_true_eq] at h
  simp only [isColonC, decide_eq_false_iff_not]
  omega

/-- Hex digits are not dots. -/
theorem hex_not_dot {c : Char} (h : isHexC c = true) : isDotC c = false := by
  simp only [isHexC, decide_eq_true_eq] at h
  simp only [isDotC, decide_eq_false_iff_not]
  omega

/-- An octet match contains no dot. -/
theorem octet_countP_dot {o : JStr} (h : Sem octetRE o) : o.countP isDotC = 0 := by
  rw [List.countP_eq_zero]
  intro c hc
  obtain ⟨_, _, hdig, _⟩ := (sem_octet_iff o).mp h
  simp [digit_not_dot (hdig c hc)]

/-- A hex-group match contains no colon. -/
theorem hexGroup_countP_colon {g : JStr} (h : Sem hexGroupRE g) :
    g.countP isColonC = 0 := by
  rw [List.countP_eq_zero]
  intro c hc
  obtain ⟨_, _, hhex⟩ := (sem_hexGroup_iff g).mp h
  simp [hex_not_colon (hhex c hc)]

/-- An IPv4 match contains exactly three dots. -/
theorem ipv4_dot_count {s : JStr} (h : Sem ipv4RE s) : s.countP isDotC = 3 := by
  obtain ⟨o1, o2, o3, o4, rfl, h1, h2, h3, h4⟩ := (sem_ipv4_iff s).mp h
  simp [List.countP_append, List.countP_cons, octet_countP_dot h1,
    octet_countP_dot h2, octet_countP_dot h3, octet_countP_dot h4, isDotC]

/-- An IPv6 match contains exactly seven colons. -/
theorem ipv6_colon_count {s : JStr} (h : Sem ipv6RE s) : s.countP isColonC = 7 := by
  obtain ⟨g1, g2, g3, g4, g5, g6, g7, g8, rfl, h1, h2, h3, h4, h5, h6, h7, h8⟩ :=
    (sem_ipv6_iff s).mp h
  simp [List.countP_append, List.countP_cons, hexGroup_countP_colon h1,
    hexGroup_countP_colon h2, hexGroup_countP_colon h3, hexGroup_countP_colon h4,
    hexGroup_countP_colon h5, hexGroup_countP_colon h6, hexGroup_countP_colon h7,
    hexGroup_countP_colon h8, isColonC]

/-- Splitting a string at its first separator is unambiguous. -/
theorem sep_split_unique {sep : Char → Bool} :
    ∀ (a : JStr) (x : Char) (b : JStr) (c : JStr) (y : Char) (d : JStr),
      a ++ x :: b = c ++ y :: d →
      (∀ ch ∈ a, sep ch = false) → sep x = true →
      (∀ ch ∈ c, sep ch = false) → sep y = true →
      a = c ∧ x = y ∧ b = d := by
  intro a
  induction a with
  | nil =>
    intro x b c y d heq ha hx hc hy
    cases c with
    | nil =>
      simp only [List.nil_append] at heq
      obtain ⟨rfl, rfl⟩ := List.cons_eq_cons.mp heq
      exact ⟨rfl, rfl, rfl⟩
    | cons c0 ct =>
      simp only [List.nil_append, List.cons_append] at heq
      obtain ⟨rfl, _⟩ := List.cons_eq_cons.mp heq
      exact absurd hx (by simp [hc x (by simp)])
  | cons a0 at' ih =>
    intro x b c y d heq ha hx hc hy
    cases c with
    | nil =>
      simp only [List.cons_append, List.nil_append] at heq
      obtain ⟨rfl, _⟩ := List.cons_eq_cons.mp heq
      exact absurd hy (by simp [ha a0 (by simp)])
    | cons c0 ct =>
      simp only [List.cons_append] at heq
      obtain ⟨rfl, heq2⟩ := List.cons_eq_cons.mp heq
      obtain ⟨rfl, rfl, rfl⟩ := ih x b ct y d heq2
        (fun ch hch => ha ch (by simp [hch])) hx
        (fun ch hch => hc ch (by simp [hch])) hy
      exact ⟨rfl, rfl, rfl⟩

/-- Strings of digits contain no dot. -/
theorem digits_dotFree {o : JStr} (hd : ∀ c ∈ o, isDigitC c = true) :
    ∀ ch ∈ o, isDotC ch = false :=
  fun ch hch => digit_not_dot (hd ch hch)

/-- C8: the address validator accepts every well-formed IPv4 string
(four dot-separated decimal octets of at most three digits, each with
value at most 255) and every IPv6 string of eight colon-separated groups
of one to four hex digits, and rejects the malformed variants: a final
octet with value above 255, a three-segment dotted string, and an
eight-group colon string one of whose groups contains a non-hex,
non-colon character. -/
theorem C8_ip_validator :
    (∀ o1 o2 o3 o4 : JStr, goodOctet o1 → goodOctet o2 → goodOctet o3 →
      goodOctet o4 →
      isValidIp (o1 ++ '.' :: (o2 ++ '.' :: (o3 ++ '.' :: o4))) = true) ∧
    (∀ g1 g2 g3 g4 g5 g6 g7 g8 : JStr, goodHexGroup g1 → goodHexGroup g2 →
      goodHexGroup g3 → goodHexGroup g4 → goodHexGroup g5 → goodHexGroup g6 →
      goodHexGroup g7 → goodHexGroup g8 →
      isValidIp (g1 ++ ':' :: (g2 ++ ':' :: (g3 ++ ':' :: (g4 ++ ':' ::
        (g5 ++ ':' :: (g6 ++ ':' :: (g7 ++ ':' :: g8))))))) = true) ∧
    (∀ o1 o2 o3 b : JStr, goodOctet o1 → goodOctet o2 → goodOctet o3 →
      b ≠ [] → (∀ c ∈ b, isDigitC c = true) → 255 < octVal b →
      isValidIp (o1 ++ '.' :: (o2 ++ '.' :: (o3 ++ '.' :: b))) = false) ∧
    (∀ o1 o2 o3 : JStr, goodOctet o1 → goodOctet o2 → goodOctet o3 →
      isValidIp (o1 ++ '.' :: (o2 ++ '.' :: o3)) = false) ∧
    (∀ g1 g2 g3 g4 g5 g6 g7 bad : JStr, ∀ c0 : Char, goodHexGroup g1 →
      goodHexGroup g2 → goodHexGroup g3 → goodHexGroup g4 → goodHexGroup g5 →
      goodHexGroup g6 → goodHexGroup g7 → c0 ∈ bad → isHexC c0 = false →
      isColonC c0 = false →
      isValidIp (g1 ++ ':' :: (g2 ++ ':' :: (g3 ++ ':' :: (g4 ++ ':' ::
        (g5 ++ ':' :: (g6 ++ ':' :: (g7 ++ ':' :: bad))))))) = false) := by
  refine ⟨?_, ?_, ?_, ?_, ?_⟩
  · intro o1 o2 o3 o4 h1 h2 h3 h4
    have hsem : Sem ipv4RE (o1 ++ '.' :: (o2 ++ '.' :: (o3 ++ '.' :: o4))) :=
      (sem_ipv4_iff _).mpr ⟨o1, o2, o3, o4, rfl, (sem_octet_iff _).mpr h1,
        (sem_octet_iff _).mpr h2, (sem_octet_iff _).mpr h3, (sem_octet_iff _).mpr h4⟩
    simp [isValidIp, (reMatch_iff _ _).mpr hsem]
  · intro g1 g2 g3 g4 g5 g6 g7 g8 h1 h2 h3 h4 h5 h6 h7 h8
    have hsem : Sem ipv6RE (g1 ++ ':' :: (g2 ++ ':' :: (g3 ++ ':' :: (g4 ++ ':' ::
        (g5 ++ ':' :: (g6 ++ ':' :: (g7 ++ ':' :: g8))))))) :=
      (sem_ipv6_iff _).mpr ⟨g1, g2, g3, g4, g5, g6, g7, g8, rfl,
        (sem_hexGroup_iff _).mpr h1, (sem_hexGroup_iff _).mpr h2,
        (sem_hexGroup_iff _).mpr h3, (sem_hexGroup_iff _).mpr h4,
        (sem_hexGroup_iff _).mpr h5, (sem_hexGroup_iff _).mpr h6,
        (sem_hexGroup_iff _).mpr h7, (sem_hexGroup_iff _).mpr h8⟩
    simp [isValidIp, (reMatch_iff _ _).mpr hsem]
  · intro o1 o2 o3 b h1 h2 h3 hbne hbdig hbval
    rw [isValidIp, Bool.or_eq_false_iff]
    constructor
    · rw [Bool.eq_false_iff]
      intro hm
      obtain ⟨p1, p2, p3, p4, heq, hp1, hp2, hp3, hp4⟩ :=
        (sem_ipv4_iff _).mp ((reMatch_iff _ _).mp hm)
      obtain ⟨rfl, _, heq2⟩ := sep_split_unique o1 '.' _ p1 '.' _ heq
        (digits_dotFree h1.2.2.1) (by decide)
        (digits_dotFree ((sem_octet_iff _).mp hp1).2.2.1) (by decide)
      obtain ⟨rfl, _, heq3⟩ := sep_split_unique o2 '.' _ p2 '.' _ heq2
        (digits_dotFree h2.2.2.1) (by decide)
        (digits_dotFree ((sem_octet_iff _).mp hp2).2.2.1) (by decide)
      obtain ⟨rfl, _, rfl⟩ := sep_split_unique o3 '.' _ p3 '.' _ heq3
        (digits_dotFree h3.2.2.1) (by decide)
        (digits_dotFree ((sem_octet_iff _).mp hp3).2.2.1) (by decide)
      have := ((sem_octet_iff _).mp hp4).2.2.2
      omega
    · rw [Bool.eq_false_iff]
      intro hm
      have hchars := ipv6_chars ((reMatch_iff _ _).mp hm)
      have hdotmem : ('.' : Char) ∈ o1 ++ '.' :: (o2 ++ '.' :: (o3 ++ '.' :: b)) := by
        simp
      rcases hchars '.' hdotmem with hh | hh <;> exact absurd hh (by decide)
  · intro o1 o2 o3 h1 h2 h3
    rw [isValidIp, Bool.or_eq_false_iff]
    constructor
    · rw [Bool.eq_false_iff]
      intro hm
      have hcount := ipv4_dot_count ((reMatch_iff _ _).mp hm)
      have hz1 : o1.countP isDotC = 0 :=
        List.countP_eq_zero.mpr (by
          intro c hc; simp [digits_dotFree h1.2.2.1 c hc])
      have hz2 : o2.countP isDotC = 0 :=
        List.countP_eq_zero.mpr (by
          intro c hc; simp [digits_dotFree h2.2.2.1 c hc])
      have hz3 : o3.countP isDotC = 0 :=
        List.countP_eq_zero.mpr (by
          intro c hc; simp [digits_dotFree h3.2.2.1 c hc])
      simp [List.countP_append, List.countP_cons, hz1, hz2, hz3, isDotC] at hcount
    · rw [Bool.eq_false_iff]
      intro hm
      have hchars := ipv6_chars ((reMatch_iff _ _).mp hm)
      have hdotmem : ('.' : Char) ∈ o1 ++ '.' :: (o2 ++ '.' :: o3) := by simp
      rcases hchars '.' hdotmem with hh | hh <;> exact absurd hh (by decide)
  · intro g1 g2 g3 g4 g5 g6 g7 bad c0 h1 h2 h3 h4 h5 h6 h7 hc0 hc0hex hc0col
    rw [isValidIp, Bool.or_eq_false_iff]
    constructor
    · rw [Bool.eq_false_iff]
      intro hm
      have hchars := ipv4_chars ((reMatch_iff _ _).mp hm)
      have hcolmem : (':' : Char) ∈ g1 ++ ':' :: (g2 ++ ':' :: (g3 ++ ':' ::
          (g4 ++ ':' :: (g5 ++ ':' :: (g6 ++ ':' :: (g7 ++ ':' :: bad)))))) := by
        simp
      rcases hchars ':' hcolmem with hh | hh <;> exact absurd hh (by decide)
    · rw [Bool.eq_false_iff]
      intro hm
      have hchars := ipv6_chars ((reMatch_iff _ _).mp hm)
      have hmem : c0 ∈ g1 ++ ':' :: (g2 ++ ':' :: (g3 ++ ':' :: (g4 ++ ':' ::
          (g5 ++ ':' :: (g6 ++ ':' :: (g7 ++ ':' :: bad)))))) := by
        simp [hc0]
      rcases hchars c0 hmem with hh | hh
      · rw [hc0hex] at hh; cases hh
      · rw [hc0col] at hh; cases hh

/-- Witness for C8 at concrete addresses. -/
theorem C8_witness :
    isValidIp "203.0.113.9".data = true ∧
    isValidIp "2001:db8:85a3:0:0:8a2e:370:7334".data = true ∧
    isValidIp "1.2.3.300".data = false ∧
    isValidIp "1.2.3".data = false ∧
    isValidIp "1:2:3:4:5:6:7:zz".data = false := by
  refine ⟨?_, ?_, ?_, ?_, ?_⟩
  · rw [show ("203.0.113.9".data : JStr) =
      "203".data ++ '.' :: ("0".data ++ '.' :: ("113".data ++ '.' :: "9".data))
      by decide]
    exact C8_ip_validator.1 "203".data "0".data "113".data "9".data
      (by decide) (by decide) (by decide) (by decide)
  · rw [show ("2001:db8:85a3:0:0:8a2e:370:7334".data : JStr) =
      "2001".data ++ ':' :: ("db8".data ++ ':' :: ("85a3".data ++ ':' ::
        ("0".data ++ ':' :: ("0".data ++ ':' :: ("8a2e".data ++ ':' ::
        ("370".data ++ ':' :: "7334".data)))))) by decide]
    exact C8_ip_validator.2.1 "2001".data "db8".data "85a3".data "0".data
      "0".data "8a2e".data "370".data "7334".data
      (by decide) (by decide) (by decide) (by decide)
      (by decide) (by decide) (by decide) (by decide)
  · rw [show ("1.2.3.300".data : JStr) =
      "1".data ++ '.' :: ("2".data ++ '.' :: ("3".data ++ '.' :: "300".data))
      by decide]
    exact C8_ip_validator.2.2.1 "1".data "2".data "3".data "300".data
      (by decide) (by decide) (by decide) (by decide) (by decide) (by decide)
  · rw [show ("1.2.3".data : JStr) =
      "1".data ++ '.' :: ("2".data ++ '.' :: "3".data) by decide]
    exact C8_ip_validator.2.2.2.1 "1".data "2".data "3".data
      (by decide) (by decide) (by decide)
  · rw [show ("1:2:3:4:5:6:7:zz".data : JStr) =
      "1".data ++ ':' :: ("2".data ++ ':' :: ("3".data ++ ':' :: ("4".data ++ ':' ::
        ("5".data ++ ':' :: ("6".data ++ ':' :: ("7".data ++ ':' :: "zz".data))))))
      by decide]
    exact C8_ip_validator.2.2.2.2 "1".data "2".data "3".data "4".data "5".data
      "6".data "7".data "zz".data 'z'
      (by decide) (by decide) (by decide) (by decide) (by decide) (by decide)
      (by decide) (by decide) (by decide) (by decide)

/-- Characters of a valid IP address are never whitespace. -/
theorem valid_no_ws {s : JStr} (h : isValidIp s = true) :
    ∀ c ∈ s, isWs c = false := by
  intro c hc
  rcases Bool.or_eq_true _ _ |>.mp h with h4 | h6
  · rcases ipv4_chars ((reMatch_iff _ _).mp h4) c hc with hd | hd <;>
      (simp only [isDigitC, isDotC, decide_eq_true_eq] at hd
       simp only [isWs, decide_eq_false_iff_not]
       omega)
  · rcases ipv6_chars ((reMatch_iff _ _).mp h6) c hc with hd | hd <;>
      (simp only [isHexC, isColonC, decide_eq_true_eq] at hd
       simp only [isWs, decide_eq_false_iff_not]
       omega)

/-- Trimming is the identity on whitespace-free strings. -/
theorem jsTrim_eq_self {l : JStr} (h : ∀ c ∈ l, isWs c = false) : jsTrim l = l := by
  have h1 : l.dropWhile isWs = l := by
    cases l with
    | nil => rfl
    | cons a t =>
      rw [List.dropWhile_cons, h a (by simp)]
      simp
  rw [jsTrim, h1]
  have h2 : l.reverse.dropWhile isWs = l.reverse := by
    cases hr : l.reverse with
    | nil => rfl
    | cons a t =>
      rw [List.dropWhile_cons, h a (by rw [← List.mem_reverse, hr]; simp)]
      simp
  rw [h2, List.reverse_reverse]

/-- C1: in a cycle all three compared addresses have passed `isValidIp`
(readLocalIp validates the local record, getPublicIp validates the
detection result, getRemoteIp validates the remote value, and the
degraded fallback substitutes the already-validated local value), and on
such inputs the decision `needsUpdate` is a pure function of the three
strings that is true exactly when local differs from public or remote
differs from public under exact string equality after trimming — which
on validated addresses coincides with raw equality, so no IPv6
normalization takes place. -/
theorem C1_reconciliation_decision (l p r : JStr) (hl : isValidIp l = true)
    (hp : isValidIp p = true) (hr : isValidIp r = true) :
    needsUpdate l p r = true ↔ (jsTrim l ≠ jsTrim p ∨ jsTrim r ≠ jsTrim p) := by
  rw [jsTrim_eq_self (valid_no_ws hl), jsTrim_eq_self (valid_no_ws hp),
    jsTrim_eq_self (valid_no_ws hr)]
  simp [needsUpdate, Bool.or_eq_true, bne_iff_ne]

/-- Witness for C1: equal validated addresses yield no update. -/
theorem C1_witness :
    isValidIp "1.2.3.4".data = true ∧
    (needsUpdate "1.2.3.4".data "1.2.3.4".data "1.2.3.4".data = true ↔
      (jsTrim "1.2.3.4".data ≠ jsTrim "1.2.3.4".data ∨
       jsTrim "1.2.3.4".data ≠ jsTrim "1.2.3.4".data)) :=
  ⟨by decide, C1_reconciliation_decision "1.2.3.4".data "1.2.3.4".data
    "1.2.3.4".data (by decide) (by decide) (by decide)⟩

/-- Whitespace collapsing only introduces plain spaces. -/
theorem mem_collapseWs : ∀ (l : JStr) (c : Char), c ∈ collapseWs l → c = ' ' ∨ c ∈ l := by
  intro l
  induction l with
  | nil => intro c hc; cases hc
  | cons a t ih =>
    cases t with
    | nil =>
      intro c hc
      by_cases h : isWs a
      · rw [collapseWs, if_pos h] at hc
        exact Or.inl (List.mem_singleton.mp hc)
      · rw [collapseWs, if_neg h] at hc
        exact Or.inr hc
    | cons b u =>
      intro c hc
      rw [collapseWs] at hc
      by_cases hab : isWs a && isWs b
      · rw [if_pos hab] at hc
        rcases ih c hc with h | h
        · exact Or.inl h
        · exact Or.inr (List.mem_cons_of_mem a h)
      · rw [if_neg hab] at hc
        rcases List.mem_cons.mp hc with rfl | hc2
        · by_cases ha : isWs a
          · rw [if_pos ha]
            exact Or.inl rfl
          · rw [if_neg ha]
            exact Or.inr (by simp)
        · rcases ih c hc2 with h | h
          · exact Or.inl h
          · exact Or.inr (List.mem_cons_of_mem a h)

/-- Trimming only removes characters. -/
theorem mem_jsTrim {l : JStr} {c : Char} (h : c ∈ jsTrim l) : c ∈ l := by
  rw [jsTrim, List.mem_reverse] at h
  have h1 : c ∈ (l.dropWhile isWs).reverse := (List.dropWhile_sublist _).subset h
  rw [List.mem_reverse] at h1
  exact (List.dropWhile_sublist _).subset h1

/-- C9: whenever `GitService.commit` reaches the external tool, the
commit message interpolated into the `git commit -m` command is exactly
the sanitized form of the input, which contains none of the
tool-significant characters (backtick, dollar, parentheses, braces,
square brackets, pipe, ampersand, semicolon) and is at most 100
characters long. -/
theorem C9_sanitized_commit_message (msg : Option JStr) (cmd : JStr)
    (h : gitCommitCmd msg = some cmd) :
    cmd = "git commit -m \"".data ++ sanitizeGitMessage msg ++ "\"".data ∧
    (∀ c ∈ sanitizeGitMessage msg, dangerousChar c = false) ∧
    (sanitizeGitMessage msg).length ≤ 100 := by
  refine ⟨?_, ?_, ?_⟩
  · rw [gitCommitCmd] at h
    by_cases hs : sanitizeGitMessage msg = []
    · simp [hs] at h
    · simp only [hs, if_neg, if_false] at h
      exact (Option.some_inj.mp h).symm
  · intro c hc
    cases msg with
    | none =>
      have hall : ∀ c ∈ sanitizeGitMessage none, dangerousChar c = false := by decide
      exact hall c hc
    | some m =>
      by_cases hm : m = []
      · subst hm
        have hall : ∀ c ∈ sanitizeGitMessage (some []), dangerousChar c = false := by
          decide
        exact hall c hc
      · rw [sanitizeGitMessage, if_neg hm] at hc
        have h1 := List.take_subset 100 _ hc
        have h2 := mem_jsTrim h1
        rcases mem_collapseWs _ c h2 with rfl | h3
        · decide
        · have := (List.mem_filter.mp h3).2
          simpa using this
  · cases msg with
    | none => decide
    | some m =>
      by_cases hm : m = []
      · subst hm; decide
      · rw [sanitizeGitMessage, if_neg hm]
        exact List.length_take_le _ _

/-- Witness for C9: a message carrying backticks reaches the command in
sanitized form. -/
theorem C9_witness :
    gitCommitCmd (some "do `rm` x".data) =
      some "git commit -m \"do rm x\"".data ∧
    ("git commit -m \"do rm x\"".data : JStr) =
      "git commit -m \"".data ++ sanitizeGitMessage (some "do `rm` x".data) ++
        "\"".data ∧
    (∀ c ∈ sanitizeGitMessage (some "do `rm` x".data), dangerousChar c = false) ∧
    (sanitizeGitMessage (some "do `rm` x".data)).length ≤ 100 := by
  have h : gitCommitCmd (some "do `rm` x".data) =
      some "git commit -m \"do rm x\"".data := by decide
  have hmain := C9_sanitized_commit_message (some "do `rm` x".data)
    "git commit -m \"do rm x\"".data h
  exact ⟨h, hmain.1, hmain.2.1, hmain.2.2⟩

/-- C6: from a fresh health state, five consecutive failed checks (with
arbitrary error payloads and timestamps) leave the tracker unhealthy
with five consecutive failures; any single subsequent successful check
resets the failure counter to zero, records the success time, clears the
stored errors, and restores `healthy = true`. -/
theorem C6_health_tracker (e1 e2 e3 e4 e5 : Option String)
    (t1 t2 t3 t4 t5 t6 : Nat) :
    (recordCheck (recordCheck (recordCheck (recordCheck (recordCheck
        (freshHealth 0) false e1 t1) false e2 t2) false e3 t3) false e4 t4)
        false e5 t5).healthy = false ∧
    (recordCheck (recordCheck (recordCheck (recordCheck (recordCheck
        (freshHealth 0) false e1 t1) false e2 t2) false e3 t3) false e4 t4)
        false e5 t5).errorCount = 5 ∧
    (recordCheck (recordCheck (recordCheck (recordCheck (recordCheck (recordCheck
        (freshHealth 0) false e1 t1) false e2 t2) false e3 t3) false e4 t4)
        false e5 t5) true none t6).errorCount = 0 ∧
    (recordCheck (recordCheck (recordCheck (recordCheck (recordCheck (recordCheck
        (freshHealth 0) false e1 t1) false e2 t2) false e3 t3) false e4 t4)
        false e5 t5) true none t6).errors = [] ∧
    (recordCheck (recordCheck (recordCheck (recordCheck (recordCheck (recordCheck
        (freshHealth 0) false e1 t1) false e2 t2) false e3 t3) false e4 t4)
        false e5 t5) true none t6).healthy = true ∧
    (recordCheck (recordCheck (recordCheck (recordCheck (recordCheck (recordCheck
        (freshHealth 0) false e1 t1) false e2 t2) false e3 t3) false e4 t4)
        false e5 t5) true none t6).lastSuccess = some t6 := by
  simp [recordCheck, freshHealth]

/-- C5 counterexample: with debounce delay 1 and triggers at times 0 and
2, the first cycle fires at time 1 and (say) runs for 5 time units, so
the second trigger at time 2 arrives while the first cycle is still
executing; the debounce nevertheless schedules a second invocation at
time 3 — the pair of triggers yields two completed cycles, not one. -/
theorem C5_second_trigger_not_dropped :
    (0 + 1 ≤ 2 ∧ 2 < 0 + 1 + 5) ∧
    fires 1 [0, 2] = [1, 3] ∧
    (fires 1 [0, 2]).length ≠ 1 := by
  decide

/-- C5 amended: the guard is a trailing-edge debounce over trigger
times only.  A second trigger cancels the first invocation exactly when
it arrives before that invocation fires (within the delay window); a
second trigger arriving at or after the fire time — in particular while
the first cycle is still executing — schedules a second invocation, so
the two triggers produce two completed cycles rather than one. -/
theorem C5_debounce_trailing_edge (d t1 t2 : Nat) :
    fires d [t1, t2] = if t2 < t1 + d then [t2 + d] else [t1 + d, t2 + d] := by
  simp [fires]

/-- C4 counterexample: on a cycle whose local-record read fails, the
periodic-tick path surfaces the error (`checkAndUpdateIp` re-throws and
the debounce wrapper does not catch), so the failure is NOT absorbed —
it escapes the cycle even though it is recorded in the health tracker. -/
theorem C4_cycle_error_escapes :
    (periodicTick envLocalFail (freshHealth 0) 1).1 =
      .error "Failed to read local IP: ENOENT" ∧
    (periodicTick envLocalFail (freshHealth 0) 1).2.errorCount = 1 :=
  ⟨rfl, rfl⟩

/-- C4 amended: every cycle failure (local read, detection,
persistence) is recorded in the health tracker — the failure counter
increments, the health flag reflects the five-failure threshold and the
check time is stored — but `checkAndUpdateIp` re-throws the error and
the periodic tick passes it through unchanged instead of absorbing it;
only the separate startup path catches it. -/
theorem C4_cycle_records_and_rethrows (env : CycleEnv) (h : HealthSt)
    (now : Nat) (e : String)
    (herr : (checkAndUpdateIp env h now).1 = .error e) :
    (checkAndUpdateIp env h now).2.errorCount = h.errorCount + 1 ∧
    (checkAndUpdateIp env h now).2.healthy = decide (h.errorCount + 1 < 5) ∧
    (checkAndUpdateIp env h now).2.lastCheck = some now ∧
    periodicTick env h now = checkAndUpdateIp env h now := by
  rcases hL : env.localRead with eL | l
  · refine ⟨?_, ?_, ?_, rfl⟩ <;> simp [checkAndUpdateIp, hL, recordCheck]
  · rcases hD : env.detect with eD | ⟨p, m⟩
    · refine ⟨?_, ?_, ?_, rfl⟩ <;> simp [checkAndUpdateIp, hL, hD, recordCheck]
    · by_cases hNU : needsUpdate l p
        (match env.remoteFetch with | .ok r => r | .error _ => l) = true
      · rcases hU : env.updateLocal with eU | u
        · refine ⟨?_, ?_, ?_, rfl⟩ <;>
            simp [checkAndUpdateIp, hL, hD, hU, hNU, recordCheck]
        · exfalso
          simp [checkAndUpdateIp, hL, hD, hU, hNU] at herr
      · exfalso
        simp [checkAndUpdateIp, hL, hD, hNU] at herr

/-- Witness for C4: the amended theorem applied to the failing local
read. -/
theorem C4_witness :
    (checkAndUpdateIp envLocalFail (freshHealth 0) 1).1 =
      Except.error "Failed to read local IP: ENOENT" ∧
    (checkAndUpdateIp envLocalFail (freshHealth 0) 1).2.errorCount = 0 + 1 ∧
    (checkAndUpdateIp envLocalFail (freshHealth 0) 1).2.healthy =
      decide (0 + 1 < 5) ∧
    (checkAndUpdateIp envLocalFail (freshHealth 0) 1).2.lastCheck = some 1 ∧
    periodicTick envLocalFail (freshHealth 0) 1 =
      checkAndUpdateIp envLocalFail (freshHealth 0) 1 :=
  ⟨rfl, C4_cycle_records_and_rethrows envLocalFail (freshHealth 0) 1
    "Failed to read local IP: ENOENT" rfl⟩

/-- C7: when the remote fetch fails, its exception is swallowed inside
the cycle — the cycle behaves exactly as if the fetch had returned the
local address, so the decision degrades to `needsUpdate l p l`, which
compares local against public only; the cycle is never aborted by the
remote failure. -/
theorem C7_remote_fallback (env : CycleEnv) (h : HealthSt) (now : Nat)
    (l p : JStr) (m : String) (e : String)
    (hL : env.localRead = .ok l) (hD : env.detect = .ok (p, m))
    (hR : env.remoteFetch = .error e) :
    checkAndUpdateIp env h now =
      checkAndUpdateIp { env with remoteFetch := .ok l } h now ∧
    needsUpdate l p l = (l != p) := by
  constructor
  · simp [checkAndUpdateIp, hL, hD, hR]
  · simp [needsUpdate, Bool.or_self]

/-- Witness for C7 at a concrete degraded cycle. -/
theorem C7_witness :
    checkAndUpdateIp envRemoteFail (freshHealth 0) 1 =
      checkAndUpdateIp { envRemoteFail with remoteFetch := .ok "1.2.3.4".data }
        (freshHealth 0) 1 ∧
    needsUpdate "1.2.3.4".data "1.2.3.4".data "1.2.3.4".data =
      ("1.2.3.4".data != "1.2.3.4".data) :=
  C7_remote_fallback envRemoteFail (freshHealth 0) 1 "1.2.3.4".data
    "1.2.3.4".data "Google DNS" "Failed to fetch remote IP: timeout"
    rfl rfl rfl

/-- The first component of a failure entry is the strategy's name. -/
theorem failEntry_fst (m : DetectionMethod) : (failEntry m).1 = m.name := by
  rcases hw : withRetry m.outcomes 2 with e | ip <;> simp [failEntry, hw]

/-- Walking the chain past a block of failing strategies accumulates one
failure entry per strategy, in order, and invokes each of them. -/
theorem getPublicIpGo_skip :
    ∀ (pre rest : List DetectionMethod) (errs : List (String × String))
      (att : List String),
      (∀ m' ∈ pre, strategyFailsB m' = true) →
      getPublicIpGo (pre ++ rest) errs att =
        getPublicIpGo rest (errs ++ pre.map failEntry)
          (att ++ pre.map (fun x => x.name)) := by
  intro pre
  induction pre with
  | nil => intro rest errs att _; simp
  | cons m pre' ih =>
    intro rest errs att hfail
    have hm := hfail m (by simp)
    have hstep : getPublicIpGo ((m :: pre') ++ rest) errs att =
        getPublicIpGo (pre' ++ rest) (errs ++ [failEntry m]) (att ++ [m.name]) := by
      rcases hw : withRetry m.outcomes 2 with e | ip
      · simp [getPublicIpGo, hw]
      · have hv : isValidIp ip = false := by
          simpa [strategyFailsB, hw] using hm
        simp [getPublicIpGo, hw, hv]
    rw [hstep, ih _ _ _ (fun m' hm' => hfail m' (by simp [hm']))]
    simp

/-- C3: the detection chain returns the first strategy in priority order
whose retried result passes validation, tagged with exactly that
strategy's name, without invoking any later strategy; and when every
strategy fails it produces an aggregated error with exactly one entry
per strategy, in priority order, and no result value. -/
theorem C3_detection_chain :
    (∀ (methods pre post : List DetectionMethod) (m : DetectionMethod)
      (ip : JStr),
      sortByPriority methods = pre ++ m :: post →
      (∀ m' ∈ pre, strategyFailsB m' = true) →
      withRetry m.outcomes 2 = .ok ip →
      isValidIp ip = true →
      getPublicIp methods =
        (.ok { ip := ip, method := m.name },
         pre.map (fun x => x.name) ++ [m.name])) ∧
    (∀ methods : List DetectionMethod,
      (∀ m' ∈ sortByPriority methods, strategyFailsB m' = true) →
      getPublicIp methods =
        (.error ((sortByPriority methods).map failEntry,
            errorSummary ((sortByPriority methods).map failEntry)),
         (sortByPriority methods).map (fun x => x.name)) ∧
      ((sortByPriority methods).map failEntry).length =
        (sortByPriority methods).length ∧
      ((sortByPriority methods).map failEntry).map Prod.fst =
        (sortByPriority methods).map (fun x => x.name)) := by
  constructor
  · intro methods pre post m ip hsort hfail hok hvalid
    rw [getPublicIp, hsort, getPublicIpGo_skip pre (m :: post) [] [] hfail]
    simp [getPublicIpGo, hok, hvalid]
  · intro methods hfail
    refine ⟨?_, by simp, ?_⟩
    · rw [getPublicIp, show sortByPriority methods =
        sortByPriority methods ++ [] by simp,
        getPublicIpGo_skip _ [] [] [] (by simpa using hfail)]
      simp [getPublicIpGo]
    · rw [List.map_map]
      exact List.map_congr_left (fun m _ => failEntry_fst m)

/-- Witness for C3: the first strategy fails, the second succeeds; the
chain returns the second strategy's address and name after invoking
exactly the two of them. -/
theorem C3_witness :
    getPublicIp [mGoogle, mIpify] =
      (.ok { ip := "93.184.216.34".data, method := "IPify API" },
       ["Google DNS", "IPify API"]) := by
  have h := C3_detection_chain.1 [mGoogle, mIpify] [mGoogle] [] mIpify
    "93.184.216.34".data rfl
    (fun m' hm' => by
      rcases List.mem_singleton.mp hm' with rfl
      rfl)
    rfl (by decide)
  simpa [mGoogle] using h

/-- C2 (code bug): when the commit succeeds but the push fails, the
workflow attempts ZERO rollbacks — `operations` already contains
`push` (appended before the push command runs, GitService.js line 170),
so the guard `operations.includes('commit') &&
!operations.includes('push')` (line 183) is false — and it throws
instead of returning a failure result.  This contradicts the source's
own comment (line 182, "Attempt rollback if commit succeeded but push
failed"): the rollback actually fires exactly when the commit step
itself fails.  Exhausting the outer retries of `commitIpChange` still
performs zero rollbacks and ends in a throw. -/
theorem C2_push_failure_no_rollback :
    (commitAndPush true wPushFail
      (some (ciMessage "5.6.7.8".data (some "1.2.3.4".data)))
      ["src/config/ip.json"]).rollbacks = 0 ∧
    (commitAndPush true wPushFail
      (some (ciMessage "5.6.7.8".data (some "1.2.3.4".data)))
      ["src/config/ip.json"]).result =
      .error "Git operations failed at push: Git push failed: remote unreachable" ∧
    (commitAndPush true wCommitFail
      (some (ciMessage "5.6.7.8".data (some "1.2.3.4".data)))
      ["src/config/ip.json"]).rollbacks = 1 ∧
    (commitIpChange true true 3 (fun _ => wPushFail) "5.6.7.8".data
      (some "1.2.3.4".data)).rollbacks = 0 ∧
    (commitIpChange true true 3 (fun _ => wPushFail) "5.6.7.8".data
      (some "1.2.3.4".data)).result =
      .error ("Failed to commit IP change: Failed after 3 attempts: " ++
        "Git operations failed at push: Git push failed: remote unreachable") :=
  ⟨rfl, rfl, rfl, rfl, rfl⟩

/-- C10 counterexample: with git enabled but auto-commit disabled, a
direct `commitAndPush` invocation does NOT short-circuit — its guard
(GitService.js 142-145) consults only `enabled`, never `autoCommit` — so
it invokes external git commands and here ends in a failure rather than
an immediate success. -/
theorem C10_disabled_guard_mismatch :
    (commitAndPush true wPushFail (some "update ip".data) []).commands ≠ [] ∧
    (commitAndPush true wPushFail (some "update ip".data) []).result =
      .error "Git operations failed at push: Git push failed: remote unreachable" ∧
    (commitAndPush true wPushFail (some "update ip".data) []).result.isOk = false := by
  refine ⟨by decide, rfl, rfl⟩

/-- C10 amended: `commitAndPush` returns an immediate success with no
external command exactly under its own guard — `git.enabled` false —
while `commitIpChange` short-circuits the same way when either
`git.enabled` or `autoCommit` is false; `commitAndPush` itself ignores
the auto-commit flag. -/
theorem C10_disabled_short_circuit :
    (∀ (w : GitWorld) (msg : Option JStr) (files : List String),
      commitAndPush false w msg files =
        { result := .ok "Git operations disabled", rollbacks := 0,
          commands := [] }) ∧
    (∀ (enabled autoCommit : Bool) (maxRetries : Nat)
      (worlds : Nat → GitWorld) (ip : JStr) (oldIp : Option JStr),
      (enabled = false ∨ autoCommit = false) →
      commitIpChange enabled autoCommit maxRetries worlds ip oldIp =
        { result := .ok "Auto-commit disabled", rollbacks := 0,
          commands := [] }) := by
  constructor
  · intro w msg files
    simp [commitAndPush]
  · rintro enabled autoCommit maxRetries worlds ip oldIp (rfl | rfl)
    · simp [commitIpChange]
    · simp [commitIpChange]

/-- Witness for C10: both short-circuits at concrete inputs. -/
theorem C10_witness :
    commitAndPush false wPushFail (some "update ip".data) [] =
      { result := .ok "Git operations disabled", rollbacks := 0,
        commands := [] } ∧
    commitIpChange true false 3 (fun _ => wPushFail) "5.6.7.8".data none =
      { result := .ok "Auto-commit disabled", rollbacks := 0, commands := [] } :=
  ⟨C10_disabled_short_circuit.1 wPushFail (some "update ip".data) [],
   C10_disabled_short_circuit.2 true false 3 (fun _ => wPushFail)
     "5.6.7.8".data none (Or.inr rfl)⟩
